import Mathlib

/-!
# Verification of the OpenPower region-atlas / map-renderer core

Shallow embedding of the raster-indexing, caching and overlay-LUT subsystem
(`src/shared/map/region_atlas.py`, `src/core/map_indexer.py`,
`src/client/renderers/map_renderer.py`) together with proofs of the spec's
claims about it.
-/

namespace OpenPower

/-! ## PixelCodec (`RegionAtlas.pack_color` / `RegionAtlas.unpack_color`) -/

/-- `RegionAtlas.pack_color`: `return int(b) | (int(g) << 8) | (int(r) << 16)`. -/
def pack_color (r g b : Nat) : Nat :=
  b ||| (g <<< 8) ||| (r <<< 16)

/-- `RegionAtlas.unpack_color`:
`b = packed_id & 255; g = (packed_id >> 8) & 255; r = (packed_id >> 16) & 255; return (r, g, b)`. -/
def unpack_color (packed_id : Nat) : Nat × Nat × Nat :=
  (packed_id >>> 16 &&& 255, packed_id >>> 8 &&& 255, packed_id &&& 255)

/-- Bitwise-or of a low part `a < 2^k` with a `k`-shifted part is plain addition. -/
theorem lor_shiftLeft_eq_add (a c k : Nat) (h : a < 2 ^ k) :
    a ||| c <<< k = c * 2 ^ k + a := by
  apply Nat.eq_of_testBit_eq
  intro i
  rw [Nat.testBit_or, Nat.testBit_shiftLeft]
  rcases Nat.lt_or_ge i k with hik | hik
  · have hk : ¬ (k ≤ i) := Nat.not_le_of_gt hik
    simp only [ge_iff_le, hk, decide_False, Bool.false_and, Bool.or_false]
    obtain ⟨j, rfl⟩ : ∃ j, k = i + 1 + j := ⟨k - (i + 1), by omega⟩
    rw [Nat.testBit_to_div_mod, Nat.testBit_to_div_mod]
    have h2 : c * 2 ^ (i + 1 + j) + a = 2 ^ i * (2 * (c * 2 ^ j)) + a := by
      ring
    rw [h2, Nat.mul_add_div (Nat.two_pow_pos i), Nat.mul_add_mod]
  · have hk : k ≤ i := hik
    obtain ⟨j, rfl⟩ : ∃ j, i = k + j := ⟨i - k, by omega⟩
    have ha : a.testBit (k + j) = false :=
      Nat.testBit_lt_two_pow (Nat.lt_of_lt_of_le h
        (Nat.pow_le_pow_right (by omega) (by omega)))
    simp only [ha, ge_iff_le, Nat.le_add_right, decide_True, Bool.true_and,
      Bool.false_or, Nat.add_sub_cancel_left, Nat.add_sub_cancel]
    rw [Nat.testBit_to_div_mod, Nat.testBit_to_div_mod]
    have h2 : c * 2 ^ k + a = 2 ^ k * c + a := by ring
    rw [Nat.pow_add, ← Nat.div_div_eq_div_mul, h2,
      Nat.mul_add_div (Nat.two_pow_pos k), Nat.div_eq_of_lt h, Nat.add_zero]

/-- Arithmetic form of `pack_color` for in-range low channels. -/
theorem pack_color_eq_add (r g b : Nat) (hg : g < 256) (hb : b < 256) :
    pack_color r g b = r * 65536 + g * 256 + b := by
  unfold pack_color
  have h1 : b ||| g <<< 8 = g * 2 ^ 8 + b :=
    lor_shiftLeft_eq_add b g 8 (by omega)
  have h2 : g * 2 ^ 8 + b < 2 ^ 16 := by
    have : g * 2 ^ 8 ≤ 255 * 2 ^ 8 := Nat.mul_le_mul_right _ (by omega)
    omega
  rw [h1, lor_shiftLeft_eq_add _ r 16 h2]
  norm_num
  ring

/-- Arithmetic form of `unpack_color`. -/
theorem unpack_color_eq (packed_id : Nat) :
    unpack_color packed_id =
      (packed_id / 65536 % 256, packed_id / 256 % 256, packed_id % 256) := by
  unfold unpack_color
  have h255 : (255 : Nat) = 2 ^ 8 - 1 := by norm_num
  rw [h255]
  simp only [Nat.and_pow_two_sub_one_eq_mod, Nat.shiftRight_eq_div_pow]

/-- **C7.** `unpack(pack(r,g,b)) == (r,g,b)` for all byte values, and
`pack(unpack(id)) == id` for every `0 ≤ id < 2^24`: the packing
`b | (g << 8) | (r << 16)` and the mask/shift unpacking are exact inverses. -/
theorem pack_unpack_roundtrip (r g b packed_id : Nat)
    (hr : r ≤ 255) (hg : g ≤ 255) (hb : b ≤ 255) (hid : packed_id < 2 ^ 24) :
    unpack_color (pack_color r g b) = (r, g, b) ∧
    pack_color (unpack_color packed_id).1 (unpack_color packed_id).2.1
      (unpack_color packed_id).2.2 = packed_id := by
  constructor
  · rw [pack_color_eq_add r g b (by omega) (by omega), unpack_color_eq]
    refine Prod.ext ?_ (Prod.ext ?_ ?_) <;> simp only <;> omega
  · rw [unpack_color_eq]
    simp only
    rw [pack_color_eq_add _ _ _ (Nat.mod_lt _ (by omega)) (Nat.mod_lt _ (by omega))]
    omega

/-- Witness for C7 at `r = 12, g = 34, b = 56` and `packed_id = 0xABCDEF`. -/
theorem pack_unpack_roundtrip_witness :
    unpack_color (pack_color 12 34 56) = (12, 34, 56) ∧
    pack_color (unpack_color 11259375).1 (unpack_color 11259375).2.1
      (unpack_color 11259375).2.2 = 11259375 :=
  pack_unpack_roundtrip 12 34 56 11259375
    (by decide) (by decide) (by decide) (by norm_num)

/-! ## Overlay LUT and selection updates (`MapRenderer`)

The LUT `self.lut_data` is a `(lut_dim * lut_dim, 4)` array of RGBA bytes; we
model it as a total function from the cell index to an RGBA quadruple, with
the array length carried separately.  The two loops of
`MapRenderer._update_selection_texture` iterate over sets of distinct indices
and each iteration reads and writes only the cell of its own index, so each
loop is a pointwise map over the cell index. -/

/-- One RGBA cell of `MapRenderer.lut_data`. -/
structure LutCell where
  r : Nat
  g : Nat
  b : Nat
  a : Nat
deriving DecidableEq

/-- The all-zero cell `[0, 0, 0, 0]` (transparent / no country). -/
def zeroCell : LutCell := ⟨0, 0, 0, 0⟩

/-- First loop of `MapRenderer._update_selection_texture`: for each index of
`prev_multi_select_dense_ids` with `idx < len(lut_data)`, `idx != 0` and
`lut_data[idx, 3] > 0`, set the alpha byte to 200. -/
def deselectPass (len : Nat) (prev : Finset Nat) (lut : Nat → LutCell) :
    Nat → LutCell := fun i =>
  if i ∈ prev ∧ i < len ∧ i ≠ 0 ∧ 0 < (lut i).a then
    { lut i with a := 200 }
  else lut i

/-- Second loop of `MapRenderer._update_selection_texture`: for each index of
`multi_select_dense_ids` with the same guards (alpha read after the first
loop has completed), set the alpha byte to 255. -/
def selectPass (len : Nat) (next : Finset Nat) (lut : Nat → LutCell) :
    Nat → LutCell := fun i =>
  if i ∈ next ∧ i < len ∧ i ≠ 0 ∧ 0 < (lut i).a then
    { lut i with a := 255 }
  else lut i

/-- `MapRenderer._update_selection_texture`, effect on the LUT array:
the deselect loop over the previous selection followed by the select loop
over the new selection. -/
def updateSelectionLut (len : Nat) (prev next : Finset Nat)
    (lut : Nat → LutCell) : Nat → LutCell :=
  selectPass len next (deselectPass len prev lut)

/-- The set of LUT cell indices written by `_update_selection_texture`:
members of the previous selection passing the first loop's guards, plus
members of the new selection passing the second loop's guards. -/
def touchedCells (len : Nat) (prev next : Finset Nat) (lut : Nat → LutCell) :
    Finset Nat :=
  prev.filter (fun i => i < len ∧ i ≠ 0 ∧ 0 < (lut i).a) ∪
    next.filter (fun i => i < len ∧ i ≠ 0 ∧ 0 < ((deselectPass len prev lut) i).a)

/-- After the select loop has run over `A`, every guarded member of `A` has
alpha `0` or `255`. -/
theorem updateSelectionLut_alpha_cases (len : Nat) (P A : Finset Nat)
    (L0 : Nat → LutCell) :
    ∀ i, i ∈ A → i < len → i ≠ 0 →
      (updateSelectionLut len P A L0 i).a = 0 ∨
        (updateSelectionLut len P A L0 i).a = 255 := by
  intro i hA hl h0
  unfold updateSelectionLut selectPass
  by_cases hm : 0 < (deselectPass len P L0 i).a
  · right
    rw [if_pos ⟨hA, hl, h0, hm⟩]
  · left
    rw [if_neg (fun hc => hm hc.2.2.2)]
    omega

/-- Cells outside the symmetric difference of the previous and the new
selection keep their values, provided every guarded cell of the previous
selection holds alpha `0` or `255` (which is the state right after that
previous selection was applied). -/
theorem updateSelection_keep (len : Nat) (A B : Finset Nat) (L1 : Nat → LutCell)
    (hsel : ∀ i, i ∈ A → i < len → i ≠ 0 → (L1 i).a = 0 ∨ (L1 i).a = 255) :
    ∀ i, i ∉ (A \ B) ∪ (B \ A) → updateSelectionLut len A B L1 i = L1 i := by
  intro i hi
  simp only [Finset.mem_union, Finset.mem_sdiff, not_or, not_and, not_not] at hi
  by_cases hA : i ∈ A
  · have hB : i ∈ B := hi.1 hA
    by_cases hl : i < len
    · by_cases h0 : i = 0
      · simp [updateSelectionLut, selectPass, deselectPass, h0]
      · rcases hsel i hA hl h0 with ha | ha
        · have h1 : deselectPass len A L1 i = L1 i := by
            unfold deselectPass
            rw [if_neg (fun hc => absurd hc.2.2.2 (by omega))]
          unfold updateSelectionLut selectPass
          rw [h1, if_neg (fun hc => absurd hc.2.2.2 (by omega))]
        · rcases hLi : L1 i with ⟨r0, g0, b0, a0⟩
          rw [hLi] at ha
          simp only at ha
          subst ha
          have h1 : deselectPass len A L1 i = ⟨r0, g0, b0, 200⟩ := by
            unfold deselectPass
            rw [if_pos ⟨hA, hl, h0, by rw [hLi]; norm_num⟩, hLi]
          unfold updateSelectionLut selectPass
          rw [h1]
          rw [if_pos ⟨hB, hl, h0, by norm_num⟩]
    · simp [updateSelectionLut, selectPass, deselectPass, hl]
  · have hB : i ∉ B := fun h => hA (hi.2 h)
    simp [updateSelectionLut, selectPass, deselectPass, hA, hB]

/-- A concrete LUT state as produced by a full rebuild: regions `1..3` are
painted at the unselected alpha level, everything else is transparent. -/
def lutC2 : Nat → LutCell := fun i =>
  if 1 ≤ i ∧ i ≤ 3 then ⟨10, 10, 10, 200⟩ else zeroCell

/-- **C2, counterexample.** After selecting `A = {1,2}` and then `B = {2,3}`
on a LUT where cells `1..3` are painted, the second update writes 3 cells
(`{1,2} ∪ {2,3}` after the guards), not `|A Δ B| = 2`: the cell `2 ∈ A ∩ B`
is rewritten twice even though its value does not change. -/
theorem updateSelection_touched_card_counterexample :
    (touchedCells 4096 {1, 2} {2, 3}
        (updateSelectionLut 4096 ∅ {1, 2} lutC2)).card = 3 ∧
      ((({1, 2} : Finset Nat) \ {2, 3}) ∪ (({2, 3} : Finset Nat) \ {1, 2})).card
        = 2 ∧
      (touchedCells 4096 {1, 2} {2, 3}
          (updateSelectionLut 4096 ∅ {1, 2} lutC2)).card ≠
        ((({1, 2} : Finset Nat) \ {2, 3}) ∪
          (({2, 3} : Finset Nat) \ {1, 2})).card := by
  refine ⟨rfl, rfl, ?_⟩
  decide

/-- **C2 (amended).** For a second selection update (set `A` then set `B`),
the written LUT cells all lie in `A ∪ B` (so the work is independent of the
map size), and every cell outside `A Δ B` keeps its value — but the written
set is `A ∪ B` after the per-cell guards, not `A Δ B`: cells of `A ∩ B`
are rewritten (to the value they already hold). -/
theorem updateSelection_symmdiff (len : Nat) (P A B : Finset Nat)
    (L0 : Nat → LutCell) :
    touchedCells len A B (updateSelectionLut len P A L0) ⊆ A ∪ B ∧
    ∀ i, i ∉ (A \ B) ∪ (B \ A) →
      updateSelectionLut len A B (updateSelectionLut len P A L0) i =
        updateSelectionLut len P A L0 i := by
  constructor
  · apply Finset.union_subset
    · exact (Finset.filter_subset _ _).trans Finset.subset_union_left
    · exact (Finset.filter_subset _ _).trans Finset.subset_union_right
  · exact updateSelection_keep len A B _ (updateSelectionLut_alpha_cases len P A L0)

/-- Witness for C2 at the concrete scenario of the counterexample: the cell
`2 ∈ A ∩ B` lies outside `A Δ B` and keeps its value. -/
theorem updateSelection_symmdiff_witness :
    (2 : Nat) ∉ ((({1, 2} : Finset Nat) \ {2, 3}) ∪ (({2, 3} : Finset Nat) \ {1, 2})) ∧
    updateSelectionLut 4096 {1, 2} {2, 3} (updateSelectionLut 4096 ∅ {1, 2} lutC2) 2 =
      updateSelectionLut 4096 ∅ {1, 2} lutC2 2 :=
  ⟨by decide,
    (updateSelection_symmdiff 4096 ∅ {1, 2} {2, 3} lutC2).2 2 (by decide)⟩

/-- **C6.** A LUT entry whose alpha byte is zero before a selection update
(unpainted / no owner) is left completely unchanged by
`_update_selection_texture`, whether its index is in the deselected or in the
selected set: both loops test `lut_data[idx, 3] > 0` before writing. -/
theorem updateSelection_zero_alpha_untouched (len : Nat) (prev next : Finset Nat)
    (lut : Nat → LutCell) (i : Nat) (h : (lut i).a = 0) :
    updateSelectionLut len prev next lut i = lut i := by
  have h1 : deselectPass len prev lut i = lut i := by
    unfold deselectPass
    rw [if_neg (fun hc => absurd hc.2.2.2 (by omega))]
  unfold updateSelectionLut selectPass
  rw [h1, if_neg (fun hc => absurd hc.2.2.2 (by omega))]

/-- Witness for C6: index `5` is in both sets yet its transparent cell is
untouched. -/
theorem updateSelection_zero_alpha_untouched_witness :
    ((fun _ => (⟨7, 8, 9, 0⟩ : LutCell)) 5).a = 0 ∧
    updateSelectionLut 4096 {5} {5} (fun _ => (⟨7, 8, 9, 0⟩ : LutCell)) 5 =
      (fun _ => (⟨7, 8, 9, 0⟩ : LutCell)) 5 :=
  ⟨rfl, updateSelection_zero_alpha_untouched 4096 {5} {5} _ 5 rfl⟩

/-! ## RasterCache bounds baking (`RegionAtlas._rebuild_cache`)

`_rebuild_cache` packs the image into an integer raster, then for every
non-zero value present in the raster records
`(np.min(ys), np.max(ys), np.min(xs), np.max(xs))` over the positions
`ys, xs = np.where(packed == rid)`.  A raster is modelled as a total
function on its index rectangle. -/

/-- The set of pixel positions of `raster` holding the packed value `rid`
(`np.where(packed == rid)`). -/
def occSet (h w : Nat) (raster : Fin h → Fin w → Nat) (rid : Nat) :
    Finset (Fin h × Fin w) :=
  Finset.univ.filter fun p => raster p.1 p.2 = rid

/-- The bounds entry `region_bounds[rid]` produced by the baking loop of
`_rebuild_cache`: `none` for `rid = 0` (ocean/background is skipped) and for
values not present in the raster; otherwise the inclusive box
`(y_min, y_max, x_min, x_max)`. -/
def regionBoundsOf (h w : Nat) (raster : Fin h → Fin w → Nat) (rid : Nat) :
    Option (Nat × Nat × Nat × Nat) :=
  if rid = 0 then none
  else if hne : (occSet h w raster rid).Nonempty then
    some
      (((occSet h w raster rid).image fun p => (p.1 : Nat)).min' (hne.image _),
       ((occSet h w raster rid).image fun p => (p.1 : Nat)).max' (hne.image _),
       ((occSet h w raster rid).image fun p => (p.2 : Nat)).min' (hne.image _),
       ((occSet h w raster rid).image fun p => (p.2 : Nat)).max' (hne.image _))
  else none

/-- Membership of a pixel in an inclusive bounds box `(y_min, y_max, x_min, x_max)`. -/
def inBox (box : Nat × Nat × Nat × Nat) (y x : Nat) : Prop :=
  box.1 ≤ y ∧ y ≤ box.2.1 ∧ box.2.2.1 ≤ x ∧ x ≤ box.2.2.2

instance (box : Nat × Nat × Nat × Nat) (y x : Nat) : Decidable (inBox box y x) := by
  unfold inBox
  infer_instance

/-- **C5.** `region_bounds` never has an entry for ID `0`, and for every
non-zero packed ID present in the raster it has exactly one entry whose
inclusive box `(y_min, y_max, x_min, x_max)` contains every pixel equal to
the ID, while no pixel outside the box equals the ID. -/
theorem rebuild_bounds_correct (h w : Nat) (raster : Fin h → Fin w → Nat)
    (rid : Nat) :
    regionBoundsOf h w raster 0 = none ∧
    (rid ≠ 0 → (∃ p : Fin h × Fin w, raster p.1 p.2 = rid) →
      ∃ box, regionBoundsOf h w raster rid = some box ∧
        (∀ (y : Fin h) (x : Fin w), raster y x = rid → inBox box y x) ∧
        (∀ (y : Fin h) (x : Fin w), ¬ inBox box y x → raster y x ≠ rid)) := by
  constructor
  · unfold regionBoundsOf
    rw [if_pos rfl]
  · intro h0 ⟨p, hp⟩
    have hne : (occSet h w raster rid).Nonempty :=
      ⟨p, by simpa [occSet] using hp⟩
    have hbox : ∀ (y : Fin h) (x : Fin w), raster y x = rid →
        inBox
          (((occSet h w raster rid).image fun p => ((p.1 : Fin h) : Nat)).min' (hne.image _),
           ((occSet h w raster rid).image fun p => ((p.1 : Fin h) : Nat)).max' (hne.image _),
           ((occSet h w raster rid).image fun p => ((p.2 : Fin w) : Nat)).min' (hne.image _),
           ((occSet h w raster rid).image fun p => ((p.2 : Fin w) : Nat)).max' (hne.image _))
          y x := by
      intro y x hyx
      have hmem : (y, x) ∈ occSet h w raster rid := by
        simpa [occSet] using hyx
      exact
        ⟨Finset.min'_le _ _
            (Finset.mem_image_of_mem (fun p : Fin h × Fin w => (p.1 : Nat)) hmem),
         Finset.le_max' _ _
            (Finset.mem_image_of_mem (fun p : Fin h × Fin w => (p.1 : Nat)) hmem),
         Finset.min'_le _ _
            (Finset.mem_image_of_mem (fun p : Fin h × Fin w => (p.2 : Nat)) hmem),
         Finset.le_max' _ _
            (Finset.mem_image_of_mem (fun p : Fin h × Fin w => (p.2 : Nat)) hmem)⟩
    refine ⟨_, by unfold regionBoundsOf; rw [if_neg h0, dif_pos hne], hbox, ?_⟩
    intro y x hout hyx
    exact hout (hbox y x hyx)

/-- The 4×4 raster of the spec's concrete scenario: background `0` everywhere
except a 2×2 block of packed ID `5` at rows 1–2, cols 1–2. -/
def raster44 : Fin 4 → Fin 4 → Nat := fun y x =>
  if 1 ≤ (y : Nat) ∧ (y : Nat) ≤ 2 ∧ 1 ≤ (x : Nat) ∧ (x : Nat) ≤ 2 then 5 else 0

/-- Witness for C5 on the spec's 4×4 scenario: `RegionBounds[5] = (1,2,1,2)`
contains exactly the pixels holding `5`. -/
theorem rebuild_bounds_correct_witness :
    regionBoundsOf 4 4 raster44 0 = none ∧
    ∃ box, regionBoundsOf 4 4 raster44 5 = some box ∧
      (∀ (y : Fin 4) (x : Fin 4), raster44 y x = 5 → inBox box y x) ∧
      (∀ (y : Fin 4) (x : Fin 4), ¬ inBox box y x → raster44 y x ≠ 5) :=
  ⟨(rebuild_bounds_correct 4 4 raster44 5).1,
    (rebuild_bounds_correct 4 4 raster44 5).2 (by decide)
      ⟨(⟨1, by decide⟩, ⟨1, by decide⟩), by decide⟩⟩

/-! ## Dense-index cache (`MapIndexer`)

Files are modelled by their observable contents: a source file is `none`
(missing) or `some bytes`; a persisted cache artifact is `none` (missing),
`some (.error ())` (present but corrupt — any deserialization raises), or
`some (.ok payload)`.  The SHA-256 function itself is abstracted as a
parameter `H`. -/

/-- Payload of the `.npz` archive written by `MapIndexer._compute_and_cache`:
`{unique_ids, dense_map, hash}`. -/
structure IdxCache where
  hash : String
  unique_ids : List Nat
  dense_map : List Nat
deriving DecidableEq

/-- `MapIndexer._compute_file_hash`: SHA-256 over the file's bytes; on
`FileNotFoundError` it returns the sentinel string instead of raising. -/
def computeFileHash (H : List Nat → String) (file : Option (List Nat)) : String :=
  match file with
  | some bytes => H bytes
  | none => "FILE_NOT_FOUND"

/-- `MapIndexer._load_from_cache`: `None` when the cache file is missing,
when deserialization raises, or when the stored hash differs from
`current_hash`; otherwise the stored arrays. -/
def loadFromCache (cacheFile : Option (Except Unit IdxCache))
    (currentHash : String) : Option (List Nat × List Nat) :=
  match cacheFile with
  | none => none
  | some (Except.error _) => none
  | some (Except.ok c) =>
    if c.hash = currentHash then some (c.unique_ids, c.dense_map) else none

/-- Insert a value into a sorted list, keeping it sorted. -/
def insertSorted (x : Nat) : List Nat → List Nat
  | [] => [x]
  | y :: ys => if x ≤ y then x :: y :: ys else y :: insertSorted x ys

/-- The sorted list of distinct values of `arr` (`np.unique`). -/
def uniqueSorted (arr : List Nat) : List Nat :=
  (arr.foldr (fun x acc => if x ∈ acc then acc else x :: acc) []).foldr
    insertSorted []

/-- `np.unique(map_array, return_inverse=True)`: the sorted distinct values,
and for each element of the array its index into that sorted list. -/
def computeIndices (arr : List Nat) : List Nat × List Nat :=
  let u := uniqueSorted arr
  (u, arr.map fun v => u.findIdx (fun y => y == v))

/-- `MapIndexer.get_indices`, with a flag telling whether the cache hit.
Every Python path returns normally (the one `FileNotFoundError` is caught in
`_compute_file_hash`, cache errors in `_load_from_cache`), so the embedding
is `.ok` on every input. -/
def get_indices (H : List Nat → String) (sourceFile : Option (List Nat))
    (cacheFile : Option (Except Unit IdxCache)) (mapDataArray : List Nat) :
    Except Unit ((List Nat × List Nat) × Bool) :=
  let currentHash := computeFileHash H sourceFile
  match loadFromCache cacheFile currentHash with
  | some d => Except.ok (d, true)
  | none => Except.ok (computeIndices mapDataArray, false)

/-! ## Raster cache (`RegionAtlas`) -/

/-- Payload of the `_meta.npy` file: `{'mtime': ..., 'bounds': ...}`. -/
structure AtlasMeta where
  mtime : Int
  bounds : List (Nat × (Nat × Nat × Nat × Nat))
deriving DecidableEq

/-- `RegionAtlas._is_cache_valid`: both cache files exist, the metadata
deserializes, and its stored `mtime` equals the source's current `mtime`.
The source file's bytes are not consulted. -/
def isCacheValid (mapFile : Option (Except Unit (List (List Nat))))
    (metaFile : Option (Except Unit AtlasMeta)) (currentMtime : Int) : Bool :=
  match mapFile, metaFile with
  | some _, some (Except.ok m) => m.mtime == currentMtime
  | _, _ => false

/-- Errors `RegionAtlas._load_data` can raise. -/
inductive AtlasError
  | fileNotFound
  | decodeFailed
deriving DecidableEq

/-- Environment `_load_data` runs in.  The source image is `none` when the
file is missing, `some none` when it exists but `cv2.imread` cannot decode
it, and `some (some img)` when it decodes to the RGB pixel grid `img`. -/
structure AtlasEnv where
  imageFile : Option (Option (List (List (Nat × Nat × Nat))))
  imageMtime : Int
  mapFile : Option (Except Unit (List (List Nat)))
  metaFile : Option (Except Unit AtlasMeta)

/-- Packing step of `_rebuild_cache`: `b | (g << 8) | (r << 16)` applied to
every pixel. -/
def bakeRaster (img : List (List (Nat × Nat × Nat))) : List (List Nat) :=
  img.map (List.map fun p => pack_color p.1 p.2.1 p.2.2)

/-- `RegionAtlas._rebuild_cache`, restricted to the raster it returns:
`ValueError` when the image does not decode, else the packed raster. -/
def rebuildCache (decoded : Option (List (List (Nat × Nat × Nat)))) :
    Except AtlasError (List (List Nat)) :=
  match decoded with
  | none => Except.error AtlasError.decodeFailed
  | some img => Except.ok (bakeRaster img)

/-- `RegionAtlas._load_data`: raise `FileNotFoundError` for a missing source
image; else return the cached raster when the cache is valid and its map file
deserializes, and otherwise fall through to the rebuild. -/
def loadData (env : AtlasEnv) : Except AtlasError (List (List Nat)) :=
  match env.imageFile with
  | none => Except.error AtlasError.fileNotFound
  | some decoded =>
    if isCacheValid env.mapFile env.metaFile env.imageMtime then
      match env.mapFile with
      | some (Except.ok pm) => Except.ok pm
      | _ => rebuildCache decoded
    else rebuildCache decoded

/-- **C1, counterexample.** The packed-raster/bounds artifact is not
validated by content hash: with the source file's bytes unchanged (they are
not even an input of `_is_cache_valid`), the same cache is accepted under
mtime `100` and rejected under mtime `200` — so a byte-identical copied file
(fresh mtime) misses the cache. -/
theorem atlas_cache_mtime_counterexample :
    isCacheValid (some (Except.ok [[0]])) (some (Except.ok ⟨100, []⟩)) 100 = true ∧
    isCacheValid (some (Except.ok [[0]])) (some (Except.ok ⟨100, []⟩)) 200 = false :=
  ⟨rfl, rfl⟩

/-- **C1 (amended).** The dense-index artifact is accepted iff it
deserializes and its stored hash equals the fresh content hash of the source
bytes (so byte-identical renames still hit and, absent a hash collision, any
edit misses); the packed-raster/bounds artifact instead is accepted iff both
cache files exist, the metadata deserializes, and its stored `mtime` equals
the source's current `mtime` — its acceptance is independent of the file's
bytes. -/
theorem cache_validity_characterization (H : List Nat → String)
    (bytes : List Nat) (cacheFile : Option (Except Unit IdxCache))
    (arr : List Nat) (mapFile : Option (Except Unit (List (List Nat))))
    (metaFile : Option (Except Unit AtlasMeta)) (mtime : Int) :
    ((∃ d, get_indices H (some bytes) cacheFile arr = Except.ok (d, true)) ↔
      ∃ c, cacheFile = some (Except.ok c) ∧ c.hash = H bytes) ∧
    (isCacheValid mapFile metaFile mtime = true ↔
      (∃ pm, mapFile = some pm) ∧
        ∃ m, metaFile = some (Except.ok m) ∧ m.mtime = mtime) := by
  constructor
  · constructor
    · rintro ⟨d, hd⟩
      unfold get_indices computeFileHash at hd
      match hc : cacheFile with
      | none => simp [loadFromCache] at hd
      | some (Except.error e) => simp [loadFromCache] at hd
      | some (Except.ok c) =>
        refine ⟨c, rfl, ?_⟩
        by_contra hne
        simp only [loadFromCache, if_neg hne] at hd
        simp at hd
    · rintro ⟨c, hc, hh⟩
      subst hc
      refine ⟨(c.unique_ids, c.dense_map), ?_⟩
      unfold get_indices computeFileHash
      simp [loadFromCache, hh]
  · constructor
    · intro hv
      match hm : mapFile, hmm : metaFile with
      | some pm, some (Except.ok m) =>
        unfold isCacheValid at hv
        refine ⟨⟨pm, rfl⟩, m, rfl, ?_⟩
        exact eq_of_beq hv
      | none, _ => simp [isCacheValid] at hv
      | some pm, none => simp [isCacheValid] at hv
      | some pm, some (Except.error e) => simp [isCacheValid] at hv
    · rintro ⟨⟨pm, hpm⟩, m, hm, hmt⟩
      subst hpm hm hmt
      simp [isCacheValid]

/-- **C4, counterexample.** A load of the dense-index cache layer with the
source image missing does not raise: `_compute_file_hash` swallows the
`FileNotFoundError` into a sentinel hash, the stale cache mismatches, and the
indices are recomputed from the in-memory array. -/
theorem indexer_missing_source_counterexample :
    get_indices (fun _ => "h") none
        (some (Except.ok ⟨"h0", [1], [0]⟩)) [7, 7] =
      Except.ok (([7], [0, 0]), false) := by
  rfl

/-- **C4 (amended).** Missing-source behaviour differs per layer: the raster
cache's `_load_data` raises `FileNotFoundError` immediately, while the
dense-index layer's `get_indices` does not raise — the sentinel hash
mismatches any real stored hash and the indices are recomputed from the
in-memory array.  A corrupt or undeserializable cache file never raises in
either layer: it is treated as a miss and the artifact is rebuilt from the
source. -/
theorem cache_failure_semantics (env : AtlasEnv) (H : List Nat → String)
    (sourceFile : Option (List Nat))
    (cacheFile : Option (Except Unit IdxCache)) (arr : List Nat) :
    (env.imageFile = none → loadData env = Except.error AtlasError.fileNotFound) ∧
    (∀ img, env.imageFile = some (some img) →
      ∃ r, loadData env = Except.ok r) ∧
    (∀ img, env.imageFile = some (some img) →
      env.metaFile = some (Except.error ()) →
      loadData env = Except.ok (bakeRaster img)) ∧
    ((∀ c, cacheFile = some (Except.ok c) → c.hash ≠ "FILE_NOT_FOUND") →
      get_indices H none cacheFile arr =
        Except.ok (computeIndices arr, false)) ∧
    (cacheFile = some (Except.error ()) →
      get_indices H sourceFile cacheFile arr =
        Except.ok (computeIndices arr, false)) := by
  refine ⟨?_, ?_, ?_, ?_, ?_⟩
  · intro h
    unfold loadData
    rw [h]
  · intro img h
    by_cases hv : isCacheValid env.mapFile env.metaFile env.imageMtime = true
    · match hm : env.mapFile with
      | some (Except.ok pm) =>
        rw [hm] at hv
        exact ⟨pm, by simp [loadData, h, hv, hm]⟩
      | some (Except.error e) =>
        rw [hm] at hv
        exact ⟨bakeRaster img, by simp [loadData, h, hv, hm, rebuildCache]⟩
      | none =>
        rw [hm] at hv
        exact ⟨bakeRaster img, by simp [loadData, h, hv, hm, rebuildCache]⟩
    · rw [Bool.not_eq_true] at hv
      exact ⟨bakeRaster img, by simp [loadData, h, hv, rebuildCache]⟩
  · intro img h hmeta
    have hv : isCacheValid env.mapFile env.metaFile env.imageMtime = false := by
      rw [hmeta]
      match env.mapFile with
      | some pm => rfl
      | none => rfl
    simp [loadData, h, hv, rebuildCache]
  · intro hc
    unfold get_indices computeFileHash
    match hcf : cacheFile with
    | none => rfl
    | some (Except.error e) => rfl
    | some (Except.ok c) =>
      have : c.hash ≠ "FILE_NOT_FOUND" := hc c rfl
      simp [loadFromCache, this]
  · intro hcf
    subst hcf
    unfold get_indices
    rfl

/-- Witness for C4: a concrete environment with a present, decodable 1×1
image and corrupt cache artifacts in both layers. -/
theorem cache_failure_semantics_witness :
    loadData ⟨some (some [[(1, 2, 3)]]), 50,
        some (Except.error ()), some (Except.error ())⟩ =
      Except.ok (bakeRaster [[(1, 2, 3)]]) ∧
    get_indices (fun _ => "h") (some [9]) (some (Except.error ())) [7] =
      Except.ok (computeIndices [7], false) :=
  ⟨(cache_failure_semantics ⟨some (some [[(1, 2, 3)]]), 50,
        some (Except.error ()), some (Except.error ())⟩
      (fun _ => "h") (some [9]) (some (Except.error ())) [7]).2.2.1
      [[(1, 2, 3)]] rfl rfl,
   (cache_failure_semantics ⟨some (some [[(1, 2, 3)]]), 50,
        some (Except.error ()), some (Except.error ())⟩
      (fun _ => "h") (some [9]) (some (Except.error ())) [7]).2.2.2.2 rfl⟩

/-! ## Full LUT rebuild (`MapRenderer._rebuild_lut_array`) -/

/-- One iteration of the ownership loop of `_rebuild_lut_array`: skip unknown
real IDs, skip dense IDs at or beyond the array length, skip dense ID `0`,
else write color and alpha into the dense slot. -/
def rebuildLutStep (len : Nat) (realToDense : Nat → Option Nat)
    (colors : String → Option (Nat × Nat × Nat)) (sel : Finset Nat)
    (lut : Nat → LutCell) (entry : Nat × String) : Nat → LutCell := fun i =>
  match realToDense entry.1 with
  | none => lut i
  | some denseId =>
    if denseId < len then
      if denseId = 0 then lut i
      else if i = denseId then
        ⟨((colors entry.2).getD (100, 100, 100)).1,
         ((colors entry.2).getD (100, 100, 100)).2.1,
         ((colors entry.2).getD (100, 100, 100)).2.2,
         if denseId ∈ sel then 255 else 200⟩
      else lut i
    else lut i

/-- The LUT array produced by `_rebuild_lut_array`: reset to zero
(`lut_data.fill(0)`), then fold the ownership dict's items. -/
def rebuildLutArray (len : Nat) (realToDense : Nat → Option Nat)
    (ownership : List (Nat × String))
    (colors : String → Option (Nat × Nat × Nat)) (sel : Finset Nat) :
    Nat → LutCell :=
  ownership.foldl (rebuildLutStep len realToDense colors sel) (fun _ => zeroCell)

/-- `MapRenderer._rebuild_lut_array` as a fallible call: its body contains no
`raise` and every guard falls through, so the embedding returns `.ok` on
every input. -/
def rebuildLut (len : Nat) (realToDense : Nat → Option Nat)
    (ownership : List (Nat × String))
    (colors : String → Option (Nat × Nat × Nat)) (sel : Finset Nat) :
    Except String (Nat → LutCell) :=
  Except.ok (rebuildLutArray len realToDense ownership colors sel)

/-- Cells at or beyond the array length, and cell `0`, are never written by
the rebuild fold. -/
theorem rebuildLutArray_skip (len : Nat) (rtd : Nat → Option Nat)
    (colors : String → Option (Nat × Nat × Nat)) (sel : Finset Nat)
    (ownership : List (Nat × String)) (d : Nat) (hd : len ≤ d ∨ d = 0) :
    rebuildLutArray len rtd ownership colors sel d = zeroCell := by
  unfold rebuildLutArray
  suffices hgen : ∀ (l : List (Nat × String)) (acc : Nat → LutCell),
      acc d = zeroCell →
      (l.foldl (rebuildLutStep len rtd colors sel) acc) d = zeroCell from
    hgen ownership _ rfl
  intro l
  induction l with
  | nil => intro acc hacc; exact hacc
  | cons e l ih =>
    intro acc hacc
    rw [List.foldl_cons]
    apply ih
    unfold rebuildLutStep
    rcases hr : rtd e.1 with - | dId
    · exact hacc
    · dsimp only
      by_cases h1 : dId < len
      · rw [if_pos h1]
        by_cases h2 : dId = 0
        · rw [if_pos h2]
          exact hacc
        · rw [if_neg h2, if_neg (show d ≠ dId by omega)]
          exact hacc
      · rw [if_neg h1]
        exact hacc

/-- A dense-ID table with 3 discovered regions (dense IDs 0, 1, 2). -/
def rtdSmall : Nat → Option Nat := fun r =>
  if r = 3 then some 0 else if r = 4 then some 1 else if r = 5 then some 2 else none

/-- An owner-color registry with one tag. -/
def colorsRED : String → Option (Nat × Nat × Nat) := fun t =>
  if t = "RED" then some (200, 0, 0) else none

/-- **C3, counterexample.** With 3 discovered regions but LUT capacity 2, the
rebuild does not raise: it returns normally (`.ok`) and the entry whose dense
ID `2` exceeds the capacity is silently skipped, leaving the LUT identical to
an all-transparent one. -/
theorem rebuild_lut_overflow_counterexample :
    rebuildLut 2 rtdSmall [(5, "RED")] colorsRED ∅ =
      Except.ok (fun _ => zeroCell) := rfl

/-- **C3 (amended).** When the discovered unique-region count exceeds the LUT
capacity, `_rebuild_lut_array` does not fail loudly: it completes on every
input (no raise), and every out-of-capacity dense ID is silently skipped —
its LUT cell keeps the transparent fill value, as does cell `0`. -/
theorem rebuild_lut_no_failure (len : Nat) (rtd : Nat → Option Nat)
    (ownership : List (Nat × String))
    (colors : String → Option (Nat × Nat × Nat)) (sel : Finset Nat) :
    rebuildLut len rtd ownership colors sel =
      Except.ok (rebuildLutArray len rtd ownership colors sel) ∧
    (∀ d, len ≤ d → rebuildLutArray len rtd ownership colors sel d = zeroCell) ∧
    rebuildLutArray len rtd ownership colors sel 0 = zeroCell :=
  ⟨rfl,
   fun d hd => rebuildLutArray_skip len rtd colors sel ownership d (Or.inl hd),
   rebuildLutArray_skip len rtd colors sel ownership 0 (Or.inr rfl)⟩

/-- Witness for C3 at the over-capacity input of the counterexample. -/
theorem rebuild_lut_no_failure_witness :
    rebuildLut 2 rtdSmall [(5, "RED")] colorsRED ∅ =
      Except.ok (rebuildLutArray 2 rtdSmall [(5, "RED")] colorsRED ∅) ∧
    rebuildLutArray 2 rtdSmall [(5, "RED")] colorsRED ∅ 2 = zeroCell :=
  ⟨(rebuild_lut_no_failure 2 rtdSmall [(5, "RED")] colorsRED ∅).1,
   (rebuild_lut_no_failure 2 rtdSmall [(5, "RED")] colorsRED ∅).2.1 2
     (by decide)⟩

/-! ## Political view (`RegionAtlas.generate_political_view`)

The three LUT arrays are zero-initialized over indices `0..max_id`; the
ownership dict's unique keys are written pointwise (entries above `max_id`
are skipped), with missing owner colors defaulting to `(128, 128, 128)` and
each channel truncated to a `uint8`.  A raster pixel with packed value `pid`
(`pid ≤ max_id` since `max_id = np.max(packed_map)`) then reads its three
channels from the LUTs at `pid`. -/

/-- The `(lut_r[pid], lut_g[pid], lut_b[pid])` triple of
`generate_political_view`. -/
def politicalColor (ownerMap : Nat → Option String)
    (ownerColors : String → Option (Nat × Nat × Nat)) (maxId pid : Nat) :
    Nat × Nat × Nat :=
  if pid ≤ maxId then
    match ownerMap pid with
    | some tag =>
      (((ownerColors tag).getD (128, 128, 128)).1 % 256,
       ((ownerColors tag).getD (128, 128, 128)).2.1 % 256,
       ((ownerColors tag).getD (128, 128, 128)).2.2 % 256)
    | none => (0, 0, 0)
  else (0, 0, 0)

/-- The output alpha of a pixel:
`np.where((r > 0) | (g > 0) | (b > 0), 180, 0)`. -/
def politicalAlpha (ownerMap : Nat → Option String)
    (ownerColors : String → Option (Nat × Nat × Nat)) (maxId pid : Nat) :
    Nat :=
  if 0 < (politicalColor ownerMap ownerColors maxId pid).1 ∨
      0 < (politicalColor ownerMap ownerColors maxId pid).2.1 ∨
      0 < (politicalColor ownerMap ownerColors maxId pid).2.2 then 180
  else 0

/-- **C8.** A pixel's output alpha is the painted level `180` iff one of its
looked-up R, G, B channels is non-zero; consequently a region whose owner's
registered color is pure black `(0,0,0)` gets alpha `0` and channels
`(0,0,0)` — exactly the output of an unowned region, hence indistinguishable
from it. -/
theorem political_view_alpha (ownerMap : Nat → Option String)
    (ownerColors : String → Option (Nat × Nat × Nat)) (maxId pid qid : Nat) :
    (politicalAlpha ownerMap ownerColors maxId pid = 180 ↔
      0 < (politicalColor ownerMap ownerColors maxId pid).1 ∨
        0 < (politicalColor ownerMap ownerColors maxId pid).2.1 ∨
        0 < (politicalColor ownerMap ownerColors maxId pid).2.2) ∧
    (∀ tag, ownerMap pid = some tag → ownerColors tag = some (0, 0, 0) →
      politicalColor ownerMap ownerColors maxId pid = (0, 0, 0) ∧
        politicalAlpha ownerMap ownerColors maxId pid = 0) ∧
    (ownerMap qid = none →
      politicalColor ownerMap ownerColors maxId qid = (0, 0, 0) ∧
        politicalAlpha ownerMap ownerColors maxId qid = 0) := by
  refine ⟨?_, ?_, ?_⟩
  · unfold politicalAlpha
    by_cases hc : 0 < (politicalColor ownerMap ownerColors maxId pid).1 ∨
        0 < (politicalColor ownerMap ownerColors maxId pid).2.1 ∨
        0 < (politicalColor ownerMap ownerColors maxId pid).2.2
    · rw [if_pos hc]
      simp [hc]
    · rw [if_neg hc]
      simp [hc]
  · intro tag htag hblack
    have hcol : politicalColor ownerMap ownerColors maxId pid = (0, 0, 0) := by
      unfold politicalColor
      by_cases hle : pid ≤ maxId
      · rw [if_pos hle, htag]
        simp [hblack]
      · rw [if_neg hle]
    refine ⟨hcol, ?_⟩
    unfold politicalAlpha
    rw [hcol]
    simp
  · intro hnone
    have hcol : politicalColor ownerMap ownerColors maxId qid = (0, 0, 0) := by
      unfold politicalColor
      by_cases hle : qid ≤ maxId
      · rw [if_pos hle, hnone]
      · rw [if_neg hle]
    refine ⟨hcol, ?_⟩
    unfold politicalAlpha
    rw [hcol]
    simp

/-- A region-owner map for one region `5` owned by `"NOIR"`. -/
def ownerMap8 : Nat → Option String := fun rid =>
  if rid = 5 then some "NOIR" else none

/-- Owner colors registering pure black for `"NOIR"`. -/
def ownerColors8 : String → Option (Nat × Nat × Nat) := fun t =>
  if t = "NOIR" then some (0, 0, 0) else none

/-- Witness for C8: region `5` owned with color black is rendered with
alpha `0` and channels `(0,0,0)`, exactly like the unowned region `6`. -/
theorem political_view_alpha_witness :
    (politicalColor ownerMap8 ownerColors8 10 5 = (0, 0, 0) ∧
      politicalAlpha ownerMap8 ownerColors8 10 5 = 0) ∧
    (politicalColor ownerMap8 ownerColors8 10 6 = (0, 0, 0) ∧
      politicalAlpha ownerMap8 ownerColors8 10 6 = 0) :=
  ⟨(political_view_alpha ownerMap8 ownerColors8 10 5 6).2.1 "NOIR" rfl rfl,
   (political_view_alpha ownerMap8 ownerColors8 10 5 6).2.2 rfl⟩

/-! ## Highlight state (`MapRenderer.set_highlight` / `clear_highlight`) -/

/-- The selection-related state of `MapRenderer`. -/
structure RendererState where
  single_select_dense_id : Int
  multi_select_dense_ids : Finset Nat
  prev_multi_select_dense_ids : Finset Nat
  lut : Nat → LutCell

/-- `MapRenderer._update_selection_texture` as a state transformer: run the
two alpha loops over the LUT, then set
`prev_multi_select_dense_ids = multi_select_dense_ids.copy()`. -/
def updateSelectionTextureS (len : Nat) (s : RendererState) : RendererState :=
  { s with
    lut := updateSelectionLut len s.prev_multi_select_dense_ids
      s.multi_select_dense_ids s.lut,
    prev_multi_select_dense_ids := s.multi_select_dense_ids }

/-- `MapRenderer.clear_highlight`. -/
def clearHighlight (len : Nat) (s : RendererState) : RendererState :=
  if s.multi_select_dense_ids ≠ ∅ then
    updateSelectionTextureS len
      { s with single_select_dense_id := -1, multi_select_dense_ids := ∅ }
  else { s with single_select_dense_id := -1 }

/-- `MapRenderer.set_highlight`: empty input clears; inputs whose IDs all
fail to resolve return with no state change; one resolved ID takes the
shader-uniform path; two or more take the LUT path, rewriting the texture
only when the resolved set changed. -/
def setHighlight (len : Nat) (realToDense : Nat → Option Nat)
    (ids : List Nat) (s : RendererState) : RendererState :=
  if ids = [] then clearHighlight len s
  else
    match ids.filterMap realToDense with
    | [] => s
    | [d] =>
      if s.multi_select_dense_ids ≠ ∅ then
        updateSelectionTextureS len
          { s with single_select_dense_id := (d : Int), multi_select_dense_ids := ∅ }
      else { s with single_select_dense_id := (d : Int) }
    | d1 :: d2 :: rest =>
      if (d1 :: d2 :: rest).toFinset ≠ s.multi_select_dense_ids then
        updateSelectionTextureS len
          { s with single_select_dense_id := -1, multi_select_dense_ids := (d1 :: d2 :: rest).toFinset }
      else { s with single_select_dense_id := -1 }

/-- **C9.** A non-empty highlight request in which no ID resolves through
`real_to_dense` leaves the whole selection state — scalar single-select,
both multi-select sets, and the LUT — unchanged; an empty request instead
clears the highlight (scalar to `-1`, multi-select set emptied). -/
theorem set_highlight_unknown_ids_noop (len : Nat) (rtd : Nat → Option Nat)
    (ids : List Nat) (s : RendererState)
    (hne : ids ≠ []) (hinv : ∀ r ∈ ids, rtd r = none) :
    setHighlight len rtd ids s = s ∧
    (setHighlight len rtd [] s).single_select_dense_id = -1 ∧
    (setHighlight len rtd [] s).multi_select_dense_ids = ∅ := by
  refine ⟨?_, ?_, ?_⟩
  · have hfm : ids.filterMap rtd = [] := by
      rw [List.filterMap_eq_nil_iff]
      exact hinv
    unfold setHighlight
    rw [if_neg hne, hfm]
  · unfold setHighlight clearHighlight
    rw [if_pos rfl]
    by_cases hm : s.multi_select_dense_ids ≠ ∅
    · rw [if_pos hm]
      rfl
    · rw [if_neg hm]
  · unfold setHighlight clearHighlight
    rw [if_pos rfl]
    by_cases hm : s.multi_select_dense_ids ≠ ∅
    · rw [if_pos hm]
      rfl
    · rw [if_neg hm]
      rw [not_not] at hm
      exact hm

/-- A concrete renderer state with an active multi-selection. -/
def stateC9 : RendererState := ⟨7, {1, 2}, {1}, lutC2⟩

/-- Witness for C9: the unknown ID `42` leaves `stateC9` untouched, while an
empty request clears it. -/
theorem set_highlight_unknown_ids_noop_witness :
    setHighlight 4096 (fun _ => none) [42] stateC9 = stateC9 ∧
    (setHighlight 4096 (fun _ => none) [] stateC9).single_select_dense_id = -1 ∧
    (setHighlight 4096 (fun _ => none) [] stateC9).multi_select_dense_ids = ∅ :=
  set_highlight_unknown_ids_noop 4096 (fun _ => none) [42] stateC9
    (by decide) (fun r _ => rfl)

/-! ## World-position lookup (`MapRenderer.get_region_id_at_world_pos`)

World coordinates are real-valued (mouse position); they are modelled as
rationals, which is exact for the arithmetic involved (`height - world_y`
and the bounds comparisons). -/

/-- Python `int()` on a real value: truncation toward zero. -/
def pyInt (q : ℚ) : Int :=
  if 0 ≤ q then ⌊q⌋ else ⌈q⌉

/-- `img_y = int(self.height - world_y)`. -/
def imgYOf (h : Nat) (world_y : ℚ) : Int :=
  pyInt ((h : ℚ) - world_y)

/-- Modelled from the spec: `RegionMapData.get_region_id`
(`src/core/map_data.py` is not among the sources) is the spec's
`regionAt(x, y)` — an O(1) raster lookup in the raster's own top-left pixel
coordinates, returning the reserved no-region value `0` out of bounds. -/
def get_region_id (h w : Nat) (grid : Fin h → Fin w → Nat) (x y : Int) : Nat :=
  if hb : 0 ≤ x ∧ x < (w : Int) ∧ 0 ≤ y ∧ y < (h : Int) then
    grid ⟨y.toNat, by omega⟩ ⟨x.toNat, by omega⟩
  else 0

/-- `MapRenderer.get_region_id_at_world_pos`: convert with
`img_y = int(height - world_y)`, bounds-check
`0 <= world_x < width and 0 <= img_y < height`, and look up the map data. -/
def getRegionIdAtWorldPos (h w : Nat) (grid : Fin h → Fin w → Nat)
    (world_x world_y : ℚ) : Nat :=
  if 0 ≤ world_x ∧ world_x < (w : ℚ) ∧
      0 ≤ imgYOf h world_y ∧ imgYOf h world_y < (h : Int) then
    get_region_id h w grid (pyInt world_x) (imgYOf h world_y)
  else 0

/-- Truncation toward zero lands on `0` exactly on the open unit interval
around `0`. -/
theorem pyInt_eq_zero_iff (q : ℚ) : pyInt q = 0 ↔ -1 < q ∧ q < 1 := by
  unfold pyInt
  by_cases hq : 0 ≤ q
  · rw [if_pos hq, Int.floor_eq_zero_iff]
    constructor
    · intro hm
      rcases Set.mem_Ico.mp hm with ⟨h1, h2⟩
      constructor <;> linarith
    · intro ⟨h1, h2⟩
      exact Set.mem_Ico.mpr ⟨hq, h2⟩
  · rw [if_neg hq, Int.ceil_eq_zero_iff]
    push_neg at hq
    constructor
    · intro hm
      rcases Set.mem_Ioc.mp hm with ⟨h1, h2⟩
      constructor <;> linarith
    · intro ⟨h1, h2⟩
      exact Set.mem_Ioc.mpr ⟨h1, le_of_lt hq⟩

/-- A 2×2 map whose top image row (row 0) holds region `7` and whose bottom
row holds region `3`. -/
def grid2 : Fin 2 → Fin 2 → Nat := fun y _ => if (y : Nat) = 0 then 7 else 3

/-- **C10, counterexample.** The top image row is not reached only at
`world_y == height`: with `height = 2`, the query at `world_y = 3/2 ≠ 2`
truncates `height - world_y = 1/2` to `img_y = 0` and returns the top-row
region `7`. -/
theorem world_pos_top_row_counterexample :
    getRegionIdAtWorldPos 2 2 grid2 0 (3 / 2) = 7 ∧ (3 / 2 : ℚ) ≠ ((2 : Nat) : ℚ) := by
  constructor
  · have himg : imgYOf 2 (3 / 2) = 0 := by
      unfold imgYOf
      exact (pyInt_eq_zero_iff _).2 (by norm_num)
    unfold getRegionIdAtWorldPos
    rw [himg]
    rw [if_pos (by norm_num)]
    unfold get_region_id
    rw [dif_pos (by simp [pyInt])]
    simp [pyInt, grid2]
  · norm_num

/-- **C10 (amended).** The conversion uses `img_y = int(height - world_y)`
(not `height - 1 - world_y`): a query at `world_y = 0` computes
`img_y = height`, fails the bounds check, and returns the sentinel `0`
regardless of map content and `world_x`; the top image row `img_y = 0` is
reached exactly for `height - 1 < world_y < height + 1` (truncation maps the
whole open unit interval around `height` to row `0`), not only at
`world_y = height`. -/
theorem world_pos_conversion (h w : Nat) (grid : Fin h → Fin w → Nat)
    (world_x world_y : ℚ) :
    imgYOf h 0 = (h : Int) ∧
    getRegionIdAtWorldPos h w grid world_x 0 = 0 ∧
    (imgYOf h world_y = 0 ↔ (h : ℚ) - 1 < world_y ∧ world_y < (h : ℚ) + 1) := by
  have h0 : imgYOf h 0 = (h : Int) := by
    unfold imgYOf pyInt
    rw [sub_zero, if_pos (by positivity), Int.floor_natCast]
  refine ⟨h0, ?_, ?_⟩
  · unfold getRegionIdAtWorldPos
    rw [h0, if_neg]
    rintro ⟨-, -, -, hlt⟩
    exact lt_irrefl _ hlt
  · unfold imgYOf
    rw [pyInt_eq_zero_iff]
    constructor
    · intro ⟨h1, h2⟩
      constructor <;> linarith
    · intro ⟨h1, h2⟩
      constructor <;> linarith

end OpenPower
